import Mathlib

set_option maxHeartbeats 1000000

/-!
Verification development for the 8th-period auto-signup monitor.

This file gives a shallow embedding of the program's core logic:
the club matcher (`src/src/utils/club_matcher.py` and the equivalent
methods of `src/auto_signup_monitor.py`), the signup-result classifier
(`src/src/monitors/base_monitor.py`), the signup executor and the
monitoring cycle (`src/src/monitors/playwright_monitor.py` and
`src/auto_signup_monitor.py`), and the favorites parsing of
`src/src/utils/config.py`.

Browser effects (navigation, element handles, clicking) are abstracted
into per-page input data (`PageSpec`, `ResultPage`); all string scanning
logic is translated literally from the Python code.
-/

namespace AutoSignup

/-! ### String primitives mirroring Python

Python strings are modelled as `String`/`List Char`.  `s.lower()` is
`Char.toLower` mapped over the characters; `a in b` (substring test) is
`containsSeq`.
-/

/-- Characters of `s` lowercased, modelling Python `s.lower()` viewed as a
character list. -/
def lowerChars (s : String) : List Char := s.toList.map Char.toLower

/-- Python's substring test `needle in hay` on character lists. -/
def containsSeq (needle hay : List Char) : Bool :=
  hay.tails.any (fun t => needle.isPrefixOf t)

/-- Python `str.isdigit()` (restricted to ASCII digits, which is all the
source ever feeds it): nonempty and all characters are digits. -/
def pyIsDigit (s : String) : Bool := !s.toList.isEmpty && s.toList.all Char.isDigit

/-- Split a character list at every character satisfying `p` (the
separators are dropped), like Python `str.split(sep)` for a one-character
separator.  Splitting the empty list yields one empty piece, as in Python. -/
def splitP (p : Char → Bool) : List Char → List (List Char)
  | [] => [[]]
  | c :: rest =>
      if p c then [] :: splitP p rest
      else
        match splitP p rest with
        | l :: ls => (c :: l) :: ls
        | [] => [[c]]

/-- Python `str.strip()`: drop whitespace from both ends. -/
def trimChars (cs : List Char) : List Char :=
  ((cs.dropWhile Char.isWhitespace).reverse.dropWhile Char.isWhitespace).reverse

/-- Python `str.strip()` on strings. -/
def pyStrip (s : String) : String := ⟨trimChars s.toList⟩

/-- Python `str.split()` with no argument: split on whitespace runs,
dropping empty pieces. -/
def pySplitWs (s : String) : List String :=
  ((splitP (fun c => c.isWhitespace) s.toList).filter (fun l => !l.isEmpty)).map
    (fun l => (⟨l⟩ : String))

/-! ### ClubMatcher: name extraction (`extract_club_name`) -/

/-- The status vocabulary of `extract_club_name`
(`['signups', 'capacity', 'room', 'sponsor']`). -/
def statusWords : List String := ["signups", "capacity", "room", "sponsor"]

/-- `any(word in line.lower() for word in ['signups', 'capacity', 'room', 'sponsor'])`. -/
def isStatusLine (line : String) : Bool :=
  statusWords.any (fun w => containsSeq w.toList (lowerChars line))

/-- The per-line test of the loop in `extract_club_name`: not a status line,
longer than 5 characters, not purely numeric. -/
def goodNameLine (line : String) : Bool :=
  !isStatusLine line && decide (5 < line.length) && !pyIsDigit line

/-- `ClubMatcher.extract_club_name` (`src/src/utils/club_matcher.py:17`,
identical to `auto_signup_monitor.py:201`): split the text into trimmed
nonempty lines, return the first line passing `goodNameLine`, else the
first line, else `None`. -/
def extract_club_name (text : String) : Option String :=
  let lines :=
    (((splitP (fun c => c = '\n') text.toList).map trimChars).filter
      (fun l => !l.isEmpty)).map (fun l => (⟨l⟩ : String))
  match lines.find? goodNameLine with
  | some l => some l
  | none => lines.head?

/-! ### ClubMatcher: fuzzy favorite matching (`check_favorite_match`) -/

/-- The three containment tests of `check_favorite_match`
(`src/src/utils/club_matcher.py:35`): favorite in name, name in favorite,
or some whitespace word of the favorite with more than 3 characters in the
name — all case-insensitive. -/
def favMatchTest (favorite club_name : String) : Bool :=
  containsSeq (lowerChars favorite) (lowerChars club_name) ||
  containsSeq (lowerChars club_name) (lowerChars favorite) ||
  (pySplitWs favorite).any
    (fun w => decide (3 < w.length) && containsSeq (lowerChars w) (lowerChars club_name))

/-- `ClubMatcher.check_favorite_match` (`src/src/utils/club_matcher.py:32`,
identical to `auto_signup_monitor.py:217`): first favorite in list order
passing `favMatchTest`, else `None`. -/
def check_favorite_match (favorites : List String) (club_name : String) : Option String :=
  match favorites with
  | [] => none
  | f :: rest =>
      if favMatchTest f club_name then some f else check_favorite_match rest club_name

/-! ### ClubMatcher: availability (`check_availability`)

The eight denylist regexes of `unavailable_patterns`
(`src/src/utils/club_matcher.py:12`) are embedded individually.
`re.search` succeeds iff some position of the text starts a match; for
`0/\d+`, `(\d+)/\1` and `no\s+space` the backtracking semantics coincides
with the existential one used here.
-/

/-- A position starting a match of `0/\d+`. -/
def startsZeroSlashDigit : List Char → Bool
  | '0' :: '/' :: d :: _ => d.isDigit
  | _ => false

/-- `re.search(r'0/\d+', cs)`. -/
def hasZeroSlashDigit (cs : List Char) : Bool := cs.tails.any startsZeroSlashDigit

/-- At this position, a capture of `l` digits followed by `/` and the same
digits again (one backtracking choice of `(\d+)/\1`). -/
def fillMatchAt (cs : List Char) (l : Nat) : Bool :=
  match cs.drop l with
  | '/' :: rest => (cs.take l).isPrefixOf rest
  | _ => false

/-- A position starting a match of `(\d+)/\1`: some nonempty digit run
starting here, then `/`, then the same digit string. -/
def startsExactFill (cs : List Char) : Bool :=
  (List.range (cs.takeWhile Char.isDigit).length).any (fun k => fillMatchAt cs (k + 1))

/-- `re.search(r'(\d+)/\1', cs)`. -/
def hasExactFill (cs : List Char) : Bool := cs.tails.any startsExactFill

/-- A position starting a match of `no\s+space`. -/
def startsNoSpace : List Char → Bool
  | 'n' :: 'o' :: rest =>
      decide (0 < (rest.takeWhile Char.isWhitespace).length) &&
      ("space".toList).isPrefixOf (rest.dropWhile Char.isWhitespace)
  | _ => false

/-- `re.search(r'no\s+space', cs)`. -/
def hasNoSpace (cs : List Char) : Bool := cs.tails.any startsNoSpace

/-- `f"{text} {html}".lower()` as a character list. -/
def combinedLower (text html : String) : List Char := lowerChars (text ++ " " ++ html)

/-- Some pattern of `unavailable_patterns` matches (in source order:
`full`, `closed`, `0/\d+`, `(\d+)/\1`, `waitlist`, `cancelled`,
`no\s+space`, `disabled`). -/
def anyUnavailablePattern (cs : List Char) : Bool :=
  containsSeq "full".toList cs || containsSeq "closed".toList cs ||
  hasZeroSlashDigit cs || hasExactFill cs ||
  containsSeq "waitlist".toList cs || containsSeq "cancelled".toList cs ||
  hasNoSpace cs || containsSeq "disabled".toList cs

/-- `ClubMatcher.check_availability` (`src/src/utils/club_matcher.py:41`,
identical to `auto_signup_monitor.py:226`): available iff no denylist
pattern matches the lowercased concatenation of text and markup. -/
def check_availability (text html : String) : Bool :=
  !anyUnavailablePattern (combinedLower text html)

/-! ### ClubMatcher: `find_matches` / `find_club_matches` -/

/-- One page-extracted activity entry.  `text`/`html` are the element's
`inner_text()`/`inner_html()`; `hasSignup` records whether
`_find_signup_element` finds a visible signup control (the control itself
is an opaque browser handle, irrelevant to the matching logic). -/
structure Entry where
  text : String
  html : String
  hasSignup : Bool
deriving DecidableEq

/-- A match record as built by `find_matches` (the `element` and
`signup_element` handles are omitted, being opaque). -/
structure MatchRec where
  name : String
  favorite : String
  priority : Nat
deriving DecidableEq

/-- The per-entry body of the loop in `find_matches`
(`src/src/utils/club_matcher.py:72`): extract a name, match it against the
favorites, check availability, require a signup control, and build the
match record with `priority = favorites.index(matching_favorite)`. -/
def entryMatch (favorites : List String) (e : Entry) : Option MatchRec :=
  match extract_club_name e.text with
  | none => none
  | some club_name =>
    match check_favorite_match favorites club_name with
    | none => none
    | some fav =>
      if check_availability e.text e.html then
        if e.hasSignup then
          some ⟨club_name, fav, favorites.indexOf fav⟩
        else none
      else none

/-- The comparison used by `matches.sort(key=lambda x: x['priority'])`. -/
def prioLe (a b : MatchRec) : Prop := a.priority ≤ b.priority

instance : DecidableRel prioLe :=
  fun a b => inferInstanceAs (Decidable (a.priority ≤ b.priority))

instance : IsTotal MatchRec prioLe := ⟨fun a b => Nat.le_total a.priority b.priority⟩

instance : IsTrans MatchRec prioLe := ⟨fun _ _ _ h h' => Nat.le_trans h h'⟩

/-- `ClubMatcher.find_matches` (`src/src/utils/club_matcher.py:51`,
identical to `IonAutoSignupMonitor.find_club_matches`,
`auto_signup_monitor.py:139`) applied to the list of candidate entries the
selector strategies produced: examine at most 20 entries, keep the ones
that match and are available with a signup control, then sort by priority
(`matches.sort(key=lambda x: x['priority'])`; Python's sort is stable, and
a stable sort's output is unique, so the stable `insertionSort` computes
the same list). -/
def find_club_matches (favorites : List String) (entries : List Entry) : List MatchRec :=
  ((entries.take 20).filterMap (entryMatch favorites)).insertionSort prioLe

/-! ### Result classification (`BaseMonitor.detect_signup_result`)

The page state after a signup click is abstracted to the data the
classifier inspects: `successElem`/`errorElem` is the text of the first
visible success-styled/error-styled element (`None` when no selector of
the respective list matches a visible element), plus the URL and the page
content. -/

/-- Abstracted post-signup page state. -/
structure ResultPage where
  successElem : Option String
  errorElem : Option String
  url : String
  content : String
deriving DecidableEq

/-- The success phrases scanned in the page text. -/
def successPhrases : List String :=
  ["successfully signed up", "registration confirmed", "added to activity"]

/-- The error phrases scanned in the page text. -/
def errorPhrases : List String :=
  ["already signed up", "activity is full", "registration failed"]

/-- `BaseMonitor.detect_signup_result` (`src/src/monitors/base_monitor.py:25`,
identical to `auto_signup_monitor.py:310`): ordered checks, first hit
wins; `(none, "Result unclear")` models Python's `(None, "Result unclear")`. -/
def detect_signup_result (p : ResultPage) : Option Bool × String :=
  match p.successElem with
  | some t => (some true, t)
  | none =>
  match p.errorElem with
  | some t => (some false, t)
  | none =>
  if containsSeq "success".toList (lowerChars p.url) ||
     containsSeq "signed-up".toList (lowerChars p.url) then
    (some true, "Signup appeared successful (URL changed)")
  else
    match successPhrases.find? (fun ph => containsSeq ph.toList (lowerChars p.content)) with
    | some ph => (some true, "Success detected: " ++ ph)
    | none =>
    match errorPhrases.find? (fun ph => containsSeq ph.toList (lowerChars p.content)) with
    | some ph => (some false, "Error detected: " ++ ph)
    | none => (none, "Result unclear")

/-! ### Signup executor (`attempt_signup`) -/

/-- `PlaywrightMonitor.attempt_signup` (`src/src/monitors/playwright_monitor.py:21`,
identical in effect to `auto_signup_monitor.py:260`), given the abstracted
page state after the click/confirmation: returns
`(success, message, previous_signups', notifications)`.  Python's
`if success:` treats both `False` and `None` (ambiguous) as falsy, so only
`some true` adds the club to `previous_signups` and emits the success
notification (the notification is recorded by club name).  The
`previous_signups` set is modelled as a list queried by membership. -/
def attempt_signup (prev : List String) (club_name : String) (rp : ResultPage) :
    Bool × String × List String × List String :=
  match detect_signup_result rp with
  | (some true, msg) => (true, msg, prev ++ [club_name], [club_name])
  | (some false, msg) => (false, msg, prev, [])
  | (none, msg) => (false, msg, prev, [])

/-! ### Monitoring cycle -/

/-- The data determining what one configured page does during a cycle:
whether the fetch times out / raises (`fetchFails`), whether the fetch is
redirected to the login page (`redirectsToLogin`), whether re-running
`authenticate` succeeds in that case (`recoverySucceeds`), the activity
entries the rendered page yields, and the abstracted page state seen by
`detect_signup_result` if a signup is attempted on this page. -/
structure PageSpec where
  fetchFails : Bool
  redirectsToLogin : Bool
  recoverySucceeds : Bool
  entries : List Entry
  resultPage : ResultPage
deriving DecidableEq

/-- `monitor_page` (`src/src/monitors/playwright_monitor.py:69`, identical
in effect to `auto_signup_monitor.py:357`): a timeout or error yields `[]`;
a login redirect whose re-authentication fails yields `[]`; otherwise the
page's matches.  (`PlaywrightMonitor` delegates the redirect check to
`IonAuthenticator.handle_session_expiry`, `src/src/auth/ion_auth.py:81`,
which returns `authenticate(page)` when the URL contains "login" and
`True` otherwise.) -/
def monitor_page (favorites : List String) (p : PageSpec) : List MatchRec :=
  if p.fetchFails then []
  else if p.redirectsToLogin && !p.recoverySucceeds then []
  else find_club_matches favorites p.entries

/-- Everything observable about one run of `run_monitoring_cycle`:
the visited page indices in order, the signup attempts
`(page index, club name, success)` in order, the page indices after which
the rate-limit sleep ran, the page indices at which the
already-signed-up `continue` was taken, the success notifications (club
names), the favorites-available summary notification (club names, when
sent), the accumulated `all_matches`, the final `previous_signups`,
whether the cycle returned early after a successful signup, and the
returned boolean. -/
structure CycleResult where
  visited : List Nat
  attempts : List (Nat × String × Bool)
  sleeps : List Nat
  skips : List Nat
  successNotes : List String
  summary : Option (List String)
  allMatches : List MatchRec
  prevAfter : List String
  signedUp : Bool
  result : Bool
deriving DecidableEq

/-- The page loop of `run_monitoring_cycle`
(`src/src/monitors/playwright_monitor.py:119`, identical to
`auto_signup_monitor.py:410`), processing the remaining pages starting at
index `i` of `total` with current `previous_signups` `prev` and
accumulated matches `acc`.  Mirrors the Python control flow: empty
matches fall through to the rate-limit sleep; with auto-signup on, an
already-signed-up best match takes `continue` (skipping the sleep); a
successful `attempt_signup` returns `True` immediately; afterwards, if
matches were found and auto-signup is off, the summary notification with
the first 5 match names is sent, and `len(all_matches) > 0` is returned. -/
def runPagesAux (favorites : List String) (auto : Bool) (total : Nat) :
    Nat → List String → List MatchRec → List PageSpec → CycleResult
  | _, prev, acc, [] =>
      { visited := [], attempts := [], sleeps := [], skips := [], successNotes := [],
        summary := if !acc.isEmpty && !auto then some ((acc.take 5).map MatchRec.name) else none,
        allMatches := acc, prevAfter := prev, signedUp := false,
        result := !acc.isEmpty }
  | i, prev, acc, p :: rest =>
      match monitor_page favorites p with
      | [] =>
          let tail := runPagesAux favorites auto total (i + 1) prev acc rest
          { tail with
              visited := i :: tail.visited,
              sleeps := (if i < total - 1 then [i] else []) ++ tail.sleeps }
      | best :: more =>
          let acc' := acc ++ best :: more
          if auto then
            if prev.contains best.name then
              let tail := runPagesAux favorites auto total (i + 1) prev acc' rest
              { tail with
                  visited := i :: tail.visited,
                  skips := i :: tail.skips }
            else
              let res := attempt_signup prev best.name p.resultPage
              if res.1 then
                { visited := [i], attempts := [(i, best.name, true)], sleeps := [],
                  skips := [], successNotes := res.2.2.2, summary := none,
                  allMatches := acc', prevAfter := res.2.2.1, signedUp := true,
                  result := true }
              else
                let tail := runPagesAux favorites auto total (i + 1) res.2.2.1 acc' rest
                { tail with
                    visited := i :: tail.visited,
                    attempts := (i, best.name, false) :: tail.attempts,
                    sleeps := (if i < total - 1 then [i] else []) ++ tail.sleeps }
          else
            let tail := runPagesAux favorites auto total (i + 1) prev acc' rest
            { tail with
                visited := i :: tail.visited,
                sleeps := (if i < total - 1 then [i] else []) ++ tail.sleeps }

/-- `run_monitoring_cycle` (`src/src/monitors/playwright_monitor.py:97`,
identical to `auto_signup_monitor.py:388`): when the initial
`authenticate` fails the cycle returns `False` with no page visited;
otherwise the page loop runs over all configured pages. -/
def run_monitoring_cycle (favorites : List String) (auto authOk : Bool)
    (prev : List String) (pages : List PageSpec) : CycleResult :=
  if authOk then runPagesAux favorites auto pages.length 0 prev [] pages
  else
    { visited := [], attempts := [], sleeps := [], skips := [], successNotes := [],
      summary := none, allMatches := [], prevAfter := prev, signedUp := false,
      result := false }

/-! ### Config favorites parsing -/

/-- The favorites parsing of `Config.load_config`
(`src/src/utils/config.py:28`, identical to `auto_signup_monitor.py:42`):
`[club.strip() for club in favorites_str.split(',') if club.strip()]`. -/
def parseFavorites (favorites_str : String) : List String :=
  (((splitP (fun c => c = ',') favorites_str.toList).map trimChars).filter
    (fun l => !l.isEmpty)).map (fun l => (⟨l⟩ : String))

end AutoSignup

namespace AutoSignup


def exNeutralPage : ResultPage := ⟨none, none, "https://site/p", "nothing here"⟩
def exSuccessPage : ResultPage := ⟨some "You are signed up.", none, "https://site/p", "ok"⟩
def exChessEntry : Entry := ⟨"Chess Club A", "", true⟩
def exPageFail : PageSpec := ⟨false, false, false, [exChessEntry], exNeutralPage⟩
def exPageWin : PageSpec := ⟨false, false, false, [exChessEntry], exSuccessPage⟩
def exPageLoginDead : PageSpec := ⟨false, true, false, [exChessEntry], exNeutralPage⟩
def exPageEmpty : PageSpec := ⟨false, false, false, [], exNeutralPage⟩

/-- A monitoring page specification whose single entry matches the
second-priority favorite (used to exhibit an unsorted cycle-level
concatenation). -/
def exPageFBLA : PageSpec := ⟨false, false, false, [⟨"FBLA Club Meeting", "", true⟩], exNeutralPage⟩


/-! ### Lemmas about the substring primitives -/

/-- `containsSeq` decides the infix (substring) relation. -/
theorem containsSeq_iff {needle hay : List Char} :
    containsSeq needle hay = true ↔ needle <:+: hay := by
  unfold containsSeq
  rw [List.any_eq_true]
  constructor
  · rintro ⟨t, ht, hp⟩
    rw [List.mem_tails] at ht
    rw [List.isPrefixOf_iff_prefix] at hp
    exact List.infix_iff_prefix_suffix.mpr ⟨t, hp, ht⟩
  · intro h
    obtain ⟨t, hp, ht⟩ := List.infix_iff_prefix_suffix.mp h
    exact ⟨t, (List.mem_tails _ _).mpr ht, List.isPrefixOf_iff_prefix.mpr hp⟩

/-- Mapping a function over both lists preserves the infix relation. -/
theorem infix_map (f : Char → Char) {l₁ l₂ : List Char} (h : l₁ <:+: l₂) :
    l₁.map f <:+: l₂.map f := by
  obtain ⟨s, t, rfl⟩ := h
  exact ⟨s.map f, t.map f, by simp⟩

/-- A digit, a slash and the same digit anywhere in the text matches the
`(\d+)/\1` pattern (with capture length 1). -/
theorem hasExactFill_of_digit_slash_digit {cs : List Char} {d : Char}
    (hd : d.isDigit = true) (h : [d, '/', d] <:+: cs) : hasExactFill cs = true := by
  obtain ⟨s, t, rfl⟩ := h
  unfold hasExactFill
  rw [List.any_eq_true]
  refine ⟨d :: '/' :: d :: t, (List.mem_tails _ _).mpr ⟨s, by simp⟩, ?_⟩
  unfold startsExactFill
  rw [List.any_eq_true]
  refine ⟨0, ?_, ?_⟩
  · rw [List.mem_range]
    simp [List.takeWhile, hd]
  · unfold fillMatchAt
    simp [List.isPrefixOf]

end AutoSignup

namespace AutoSignup

/-! ### C6: availability denylist -/

/-- C6: `check_availability` classifies any entry whose combined text and
markup contains `"3/3"` as unavailable, any entry containing
`"Waitlist: 5"` as unavailable, and any entry matching no pattern of the
fixed denylist as available (in particular one containing only `"2/3"`,
as the witness shows). -/
theorem check_availability_denylist (text html : String) :
    ("3/3".toList <:+: (text ++ " " ++ html).toList → check_availability text html = false) ∧
    ("Waitlist: 5".toList <:+: (text ++ " " ++ html).toList →
      check_availability text html = false) ∧
    (anyUnavailablePattern (combinedLower text html) = false →
      check_availability text html = true) := by
  refine ⟨?_, ?_, ?_⟩
  · intro h
    have hmap := infix_map Char.toLower h
    have h33 : ("3/3".toList).map Char.toLower = ['3', '/', '3'] := by decide
    rw [h33] at hmap
    have hfill : hasExactFill (combinedLower text html) = true :=
      hasExactFill_of_digit_slash_digit (by decide) hmap
    simp [check_availability, anyUnavailablePattern, hfill]
  · intro h
    have hmap := infix_map Char.toLower h
    have hw : ("Waitlist: 5".toList).map Char.toLower = "waitlist: 5".toList := by decide
    rw [hw] at hmap
    have hsub : ("waitlist".toList : List Char) <:+: "waitlist: 5".toList :=
      containsSeq_iff.mp (by decide)
    have hwl : containsSeq ['w', 'a', 'i', 't', 'l', 'i', 's', 't']
        (combinedLower text html) = true :=
      containsSeq_iff.mpr (hsub.trans hmap)
    simp [check_availability, anyUnavailablePattern, hwl]
  · intro h
    simp [check_availability, h]

/-- C6 witness: the three cases of `check_availability_denylist` at
concrete inputs: `"3/3"` and `"Waitlist: 5"` are unavailable, `"2/3"`
(matching no denylist pattern) is available. -/
theorem check_availability_denylist_witness :
    check_availability "Chess Club 3/3" "" = false ∧
    check_availability "Big Club" "<td>Waitlist: 5</td>" = false ∧
    check_availability "2/3" "" = true :=
  ⟨(check_availability_denylist "Chess Club 3/3" "").1 (containsSeq_iff.mp (by decide)),
   (check_availability_denylist "Big Club" "<td>Waitlist: 5</td>").2.1
     (containsSeq_iff.mp (by decide)),
   (check_availability_denylist "2/3" "").2.2 (by decide)⟩

end AutoSignup

namespace AutoSignup

/-! ### C5: fuzzy favorite matching -/

/-- C5: `check_favorite_match` returns the first favorite in list order for
which at least one of the three case-insensitive containment tests
(`favMatchTest`) holds, and `none` when no favorite passes; in particular
favorite "FBLA" matches "Future Business Leaders of America (FBLA)" and
favorite "Launch X" matches "Launch X Entrepreneurship". -/
theorem check_favorite_match_first (favorites : List String) (club_name : String) :
    (check_favorite_match favorites club_name = none ↔
      ∀ f ∈ favorites, favMatchTest f club_name = false) ∧
    (∀ f, check_favorite_match favorites club_name = some f →
      favMatchTest f club_name = true ∧
      ∃ l₁ l₂, favorites = l₁ ++ f :: l₂ ∧ ∀ g ∈ l₁, favMatchTest g club_name = false) ∧
    favMatchTest "FBLA" "Future Business Leaders of America (FBLA)" = true ∧
    favMatchTest "Launch X" "Launch X Entrepreneurship" = true := by
  refine ⟨?_, ?_, by decide, by decide⟩
  · induction favorites with
    | nil => simp [check_favorite_match]
    | cons f0 rest ih =>
      by_cases hf : favMatchTest f0 club_name = true
      · rw [check_favorite_match, if_pos hf]
        constructor
        · intro h
          exact absurd h (by simp)
        · intro h
          have := h f0 (List.mem_cons_self f0 rest)
          rw [hf] at this
          exact absurd this (by simp)
      · rw [check_favorite_match, if_neg hf]
        rw [ih]
        constructor
        · intro h g hg
          rcases List.mem_cons.mp hg with rfl | hg'
          · exact Bool.eq_false_iff.mpr hf
          · exact h g hg'
        · intro h g hg
          exact h g (List.mem_cons_of_mem f0 hg)
  · induction favorites with
    | nil =>
      intro f h
      exact absurd h (by simp [check_favorite_match])
    | cons f0 rest ih =>
      intro f h
      by_cases hf : favMatchTest f0 club_name = true
      · rw [check_favorite_match, if_pos hf] at h
        obtain rfl : f0 = f := Option.some.inj h
        exact ⟨hf, [], rest, rfl, by simp⟩
      · rw [check_favorite_match, if_neg hf] at h
        obtain ⟨ht, l₁, l₂, hrest, hall⟩ := ih f h
        refine ⟨ht, f0 :: l₁, l₂, by rw [hrest]; rfl, ?_⟩
        intro g hg
        rcases List.mem_cons.mp hg with rfl | hg'
        · exact Bool.eq_false_iff.mpr hf
        · exact hall g hg'

/-- C5 witness: the first-match characterization applied to a concrete
favorites list and club name. -/
theorem check_favorite_match_first_witness :
    favMatchTest "FBLA" "Future Business Leaders of America (FBLA)" = true ∧
    check_favorite_match ["Launch X"] "Launch X Entrepreneurship" = some "Launch X" :=
  ⟨((check_favorite_match_first ["FBLA"]
      "Future Business Leaders of America (FBLA)").2.1 "FBLA" (by decide)).1,
   by decide⟩

/-! ### C2: match list sorting and priorities -/

/-- C2 (amended): `find_club_matches` returns matches sorted ascending
(non-strictly) by priority, and each match's priority equals the index of
its matched favorite in the favorites list.  (Two matches may share a
priority; see the counterexample.) -/
theorem find_club_matches_sorted (favorites : List String) (entries : List Entry) :
    (find_club_matches favorites entries).Pairwise prioLe ∧
    ∀ m ∈ find_club_matches favorites entries,
      m.priority = favorites.indexOf m.favorite := by
  constructor
  · exact List.sorted_insertionSort prioLe _
  · intro m hm
    rw [find_club_matches, List.mem_insertionSort, List.mem_filterMap] at hm
    obtain ⟨e, _, he⟩ := hm
    unfold entryMatch at he
    split at he
    · exact absurd he (by simp)
    · split at he
      · exact absurd he (by simp)
      · split at he
        · split at he
          · cases he
            rfl
          · exact absurd he (by simp)
        · exact absurd he (by simp)

/-- C2 witness: the sortedness and priority-index property at a concrete
input. -/
theorem find_club_matches_sorted_witness :
    (find_club_matches ["Chess", "FBLA"] [⟨"FBLA Club Meeting", "", true⟩]).Pairwise prioLe ∧
    (⟨"FBLA Club Meeting", "FBLA", 1⟩ : MatchRec).priority =
      (["Chess", "FBLA"] : List String).indexOf "FBLA" :=
  ⟨(find_club_matches_sorted ["Chess", "FBLA"] [⟨"FBLA Club Meeting", "", true⟩]).1,
   (find_club_matches_sorted ["Chess", "FBLA"] [⟨"FBLA Club Meeting", "", true⟩]).2
     ⟨"FBLA Club Meeting", "FBLA", 1⟩ (by decide)⟩

/-- C2 counterexample: two entries matching the same favorite yield two
matches with the same priority, so the returned list is not strictly
sorted by priority (the claim's "no two returned matches share a
priority" fails). -/
theorem find_club_matches_not_strict :
    find_club_matches ["Chess"] [⟨"Chess Club A", "", true⟩, ⟨"Chess Club B", "", true⟩] =
      [⟨"Chess Club A", "Chess", 0⟩, ⟨"Chess Club B", "Chess", 0⟩] ∧
    ¬ (find_club_matches ["Chess"]
        [⟨"Chess Club A", "", true⟩, ⟨"Chess Club B", "", true⟩]).Pairwise
        (fun a b => a.priority < b.priority) := by
  have hval : find_club_matches ["Chess"]
      [⟨"Chess Club A", "", true⟩, ⟨"Chess Club B", "", true⟩] =
      [⟨"Chess Club A", "Chess", 0⟩, ⟨"Chess Club B", "Chess", 0⟩] := by decide
  refine ⟨hval, ?_⟩
  rw [hval]
  intro hp
  have := List.rel_of_pairwise_cons hp (List.mem_cons_self _ _)
  exact absurd this (by decide)

/-! ### C9: favorites parsing -/

/-- C9 counterexample: the favorites parsing of `load_config` does not
remove duplicates — the FAVORITES string "Chess,Chess" yields a list with
a duplicate entry after trimming. -/
theorem parseFavorites_dup_counterexample :
    parseFavorites "Chess,Chess" = ["Chess", "Chess"] ∧
    ¬ (parseFavorites "Chess,Chess").Nodup := by
  refine ⟨by decide, by decide⟩

/-- C9 (amended): the favorites list preserves the order of the input
entries — it is a sublist of the comma-split, trimmed pieces, never
re-sorted — and contains only nonempty (trimmed) entries; but duplicates
are not removed. -/
theorem parseFavorites_order (s : String) :
    (parseFavorites s).Sublist
      (((splitP (fun c => c = ',') s.toList).map trimChars).map (fun l => (⟨l⟩ : String))) ∧
    ∀ t ∈ parseFavorites s, t ≠ "" := by
  constructor
  · exact (List.filter_sublist _).map _
  · intro t ht
    rw [parseFavorites, List.mem_map] at ht
    obtain ⟨l, hl, rfl⟩ := ht
    have hne := List.of_mem_filter hl
    intro hcon
    have hl0 : l = [] := congrArg String.data hcon
    rw [hl0] at hne
    exact absurd hne (by decide)

/-- C9 witness: order preservation and nonemptiness at a concrete
FAVORITES string. -/
theorem parseFavorites_order_witness :
    ("Chess" : String) ≠ "" ∧
    (parseFavorites " Chess , FBLA ").Sublist
      (((splitP (fun c => c = ',') " Chess , FBLA ".toList).map trimChars).map
        (fun l => (⟨l⟩ : String))) :=
  ⟨(parseFavorites_order " Chess , FBLA ").2 "Chess" (by decide),
   (parseFavorites_order " Chess , FBLA ").1⟩

/-! ### C4: ambiguous outcome is conservative -/

/-- C4: when result classification yields the ambiguous outcome — no
success-styled element visible, no error-styled element visible, no
success marker in the URL, and no success or error phrase in the page
text — `attempt_signup` returns failure with the club not added to
previous signups and no success notification sent. -/
theorem attempt_signup_ambiguous (prev : List String) (club_name : String) (rp : ResultPage)
    (hs : rp.successElem = none) (he : rp.errorElem = none)
    (hu1 : containsSeq "success".toList (lowerChars rp.url) = false)
    (hu2 : containsSeq "signed-up".toList (lowerChars rp.url) = false)
    (hps : ∀ ph ∈ successPhrases, containsSeq ph.toList (lowerChars rp.content) = false)
    (hpe : ∀ ph ∈ errorPhrases, containsSeq ph.toList (lowerChars rp.content) = false) :
    detect_signup_result rp = (none, "Result unclear") ∧
    attempt_signup prev club_name rp = (false, "Result unclear", prev, []) := by
  have h1 : successPhrases.find?
      (fun ph => containsSeq ph.toList (lowerChars rp.content)) = none :=
    List.find?_eq_none.mpr (fun x hx => by rw [hps x hx]; simp)
  have h2 : errorPhrases.find?
      (fun ph => containsSeq ph.toList (lowerChars rp.content)) = none :=
    List.find?_eq_none.mpr (fun x hx => by rw [hpe x hx]; simp)
  have hdet : detect_signup_result rp = (none, "Result unclear") := by
    rw [detect_signup_result, hs, he, hu1, hu2, h1, h2]
    rfl
  refine ⟨hdet, ?_⟩
  rw [attempt_signup, hdet]

/-- C4 witness: the ambiguous case at a concrete page state leaves the
previous-signups list unchanged and sends nothing. -/
theorem attempt_signup_ambiguous_witness :
    attempt_signup ["Prior Club"] "Chess Club A" exNeutralPage =
      (false, "Result unclear", ["Prior Club"], []) :=
  (attempt_signup_ambiguous ["Prior Club"] "Chess Club A" exNeutralPage
    (by decide) (by decide) (by decide) (by decide) (by decide) (by decide)).2

end AutoSignup

namespace AutoSignup

/-! ### Lemmas about the monitoring cycle loop -/

/-- A failed `attempt_signup` leaves the previous-signups list unchanged. -/
theorem attempt_signup_false_prev (prev : List String) (n : String) (rp : ResultPage)
    (h : (attempt_signup prev n rp).1 = false) :
    (attempt_signup prev n rp).2.2.1 = prev := by
  unfold attempt_signup at h ⊢
  rcases hd : detect_signup_result rp with ⟨ob, msg⟩
  rw [hd] at h
  rcases ob with _ | b
  · rfl
  · cases b
    · rfl
    · simp at h

/-- Unless the loop returns early after a successful signup, every
remaining page is visited, in order. -/
theorem runPagesAux_visited_total (favorites : List String) (auto : Bool) (total : Nat) :
    ∀ (pages : List PageSpec) (i : Nat) (prev : List String) (acc : List MatchRec),
      (runPagesAux favorites auto total i prev acc pages).signedUp = false →
      (runPagesAux favorites auto total i prev acc pages).visited =
        List.range' i pages.length := by
  intro pages
  induction pages with
  | nil => intro i prev acc _; rfl
  | cons p rest ih =>
    intro i prev acc hsu
    simp only [runPagesAux] at hsu ⊢
    cases hmp : monitor_page favorites p with
    | nil =>
      rw [hmp] at hsu
      dsimp only at hsu ⊢
      rw [List.length_cons, List.range'_succ, ih (i + 1) prev acc hsu]
    | cons best more =>
      rw [hmp] at hsu
      dsimp only at hsu ⊢
      cases auto with
      | false =>
        rw [if_neg (by simp : ¬((false : Bool) = true))] at hsu ⊢
        dsimp only at hsu ⊢
        rw [List.length_cons, List.range'_succ, ih (i + 1) prev _ hsu]
      | true =>
        rw [if_pos (rfl : (true : Bool) = true)] at hsu ⊢
        by_cases hskip : prev.contains best.name = true
        · rw [if_pos hskip] at hsu ⊢
          dsimp only at hsu ⊢
          rw [List.length_cons, List.range'_succ, ih (i + 1) prev _ hsu]
        · rw [if_neg hskip] at hsu ⊢
          by_cases hres : (attempt_signup prev best.name p.resultPage).1 = true
          · rw [if_pos hres] at hsu
            dsimp only at hsu
            simp at hsu
          · rw [if_neg hres] at hsu ⊢
            dsimp only at hsu ⊢
            rw [List.length_cons, List.range'_succ, ih (i + 1) _ _ hsu]

end AutoSignup

namespace AutoSignup

/-- A successful attempt at page `j` ends the cycle: the loop reports a
signed-up early return, returns `true`, and the visited pages are exactly
`i, …, j`. -/
theorem runPagesAux_success_attempt (favorites : List String) (total : Nat) :
    ∀ (pages : List PageSpec) (i : Nat) (prev : List String) (acc : List MatchRec)
      (j : Nat) (n : String),
      (j, n, true) ∈ (runPagesAux favorites true total i prev acc pages).attempts →
      (runPagesAux favorites true total i prev acc pages).signedUp = true ∧
      (runPagesAux favorites true total i prev acc pages).result = true ∧
      i ≤ j ∧
      (runPagesAux favorites true total i prev acc pages).visited =
        List.range' i (j + 1 - i) := by
  intro pages
  induction pages with
  | nil =>
    intro i prev acc j n hmem
    simp only [runPagesAux] at hmem
    exact absurd hmem (List.not_mem_nil _)
  | cons p rest ih =>
    intro i prev acc j n hmem
    simp only [runPagesAux] at hmem ⊢
    cases hmp : monitor_page favorites p with
    | nil =>
      rw [hmp] at hmem
      dsimp only at hmem ⊢
      obtain ⟨h1, h2, h3, h4⟩ := ih (i + 1) prev acc j n hmem
      refine ⟨h1, h2, by omega, ?_⟩
      have hj : j + 1 - i = (j + 1 - (i + 1)) + 1 := by omega
      rw [hj, List.range'_succ, h4]
    | cons best more =>
      rw [hmp] at hmem
      dsimp only at hmem ⊢
      rw [if_pos trivial] at hmem ⊢
      by_cases hskip : prev.contains best.name = true
      · rw [if_pos hskip] at hmem ⊢
        dsimp only at hmem ⊢
        obtain ⟨h1, h2, h3, h4⟩ := ih (i + 1) prev _ j n hmem
        refine ⟨h1, h2, by omega, ?_⟩
        have hj : j + 1 - i = (j + 1 - (i + 1)) + 1 := by omega
        rw [hj, List.range'_succ, h4]
      · rw [if_neg hskip] at hmem ⊢
        by_cases hres : (attempt_signup prev best.name p.resultPage).1 = true
        · rw [if_pos hres] at hmem ⊢
          dsimp only at hmem ⊢
          simp only [List.mem_singleton, Prod.mk.injEq] at hmem
          obtain ⟨rfl, -, -⟩ := hmem
          refine ⟨rfl, rfl, Nat.le_refl j, ?_⟩
          have hj : j + 1 - j = 1 := by omega
          rw [hj, List.range'_one]
        · rw [if_neg hres] at hmem ⊢
          dsimp only at hmem ⊢
          rcases List.mem_cons.mp hmem with heq | hmem'
          · exact absurd (congrArg (fun a => a.2.2) heq) (by simp)
          · obtain ⟨h1, h2, h3, h4⟩ := ih (i + 1) _ _ j n hmem'
            refine ⟨h1, h2, by omega, ?_⟩
            have hj : j + 1 - i = (j + 1 - (i + 1)) + 1 := by omega
            rw [hj, List.range'_succ, h4]

/-- At most one attempt per cycle succeeds. -/
theorem runPagesAux_one_success (favorites : List String) (auto : Bool) (total : Nat) :
    ∀ (pages : List PageSpec) (i : Nat) (prev : List String) (acc : List MatchRec),
      (((runPagesAux favorites auto total i prev acc pages).attempts.filter
        (fun a => a.2.2)).length) ≤ 1 := by
  intro pages
  induction pages with
  | nil =>
    intro i prev acc
    simp [runPagesAux]
  | cons p rest ih =>
    intro i prev acc
    simp only [runPagesAux]
    cases hmp : monitor_page favorites p with
    | nil =>
      dsimp only
      exact ih (i + 1) prev acc
    | cons best more =>
      dsimp only
      cases auto with
      | false =>
        rw [if_neg (by simp : ¬((false : Bool) = true))]
        dsimp only
        exact ih (i + 1) prev _
      | true =>
        rw [if_pos (rfl : (true : Bool) = true)]
        by_cases hskip : prev.contains best.name = true
        · rw [if_pos hskip]
          dsimp only
          exact ih (i + 1) prev _
        · rw [if_neg hskip]
          by_cases hres : (attempt_signup prev best.name p.resultPage).1 = true
          · rw [if_pos hres]
            dsimp only
            simp
          · rw [if_neg hres]
            dsimp only
            rw [List.filter_cons]
            simp only [decide_eq_true_eq]
            exact ih (i + 1) _ _

/-- A successful attempt is the last attempt of the cycle: every earlier
attempt failed, and nothing follows it. -/
theorem runPagesAux_success_is_last (favorites : List String) (auto : Bool) (total : Nat) :
    ∀ (pages : List PageSpec) (i : Nat) (prev : List String) (acc : List MatchRec)
      (j : Nat) (n : String),
      (j, n, true) ∈ (runPagesAux favorites auto total i prev acc pages).attempts →
      ∃ pre, (runPagesAux favorites auto total i prev acc pages).attempts =
          pre ++ [(j, n, true)] ∧ ∀ a ∈ pre, a.2.2 = false := by
  intro pages
  induction pages with
  | nil =>
    intro i prev acc j n hmem
    simp only [runPagesAux] at hmem
    exact absurd hmem (List.not_mem_nil _)
  | cons p rest ih =>
    intro i prev acc j n hmem
    simp only [runPagesAux] at hmem ⊢
    cases hmp : monitor_page favorites p with
    | nil =>
      rw [hmp] at hmem
      dsimp only at hmem ⊢
      exact ih (i + 1) prev acc j n hmem
    | cons best more =>
      rw [hmp] at hmem
      dsimp only at hmem ⊢
      cases auto with
      | false =>
        rw [if_neg (by simp : ¬((false : Bool) = true))] at hmem ⊢
        dsimp only at hmem ⊢
        exact ih (i + 1) prev _ j n hmem
      | true =>
        rw [if_pos (rfl : (true : Bool) = true)] at hmem ⊢
        by_cases hskip : prev.contains best.name = true
        · rw [if_pos hskip] at hmem ⊢
          dsimp only at hmem ⊢
          exact ih (i + 1) prev _ j n hmem
        · rw [if_neg hskip] at hmem ⊢
          by_cases hres : (attempt_signup prev best.name p.resultPage).1 = true
          · rw [if_pos hres] at hmem ⊢
            dsimp only at hmem ⊢
            simp only [List.mem_singleton, Prod.mk.injEq] at hmem
            obtain ⟨rfl, rfl, -⟩ := hmem
            exact ⟨[], rfl, by simp⟩
          · rw [if_neg hres] at hmem ⊢
            dsimp only at hmem ⊢
            rcases List.mem_cons.mp hmem with heq | hmem'
            · exact absurd (congrArg (fun a => a.2.2) heq) (by simp)
            · obtain ⟨pre, hpre, hall⟩ := ih (i + 1) _ _ j n hmem'
              refine ⟨(i, best.name, false) :: pre, by rw [hpre, List.cons_append], ?_⟩
              intro a ha
              rcases List.mem_cons.mp ha with rfl | ha'
              · rfl
              · exact hall a ha'

/-- A club name in the previous-signups list at the start of the loop is
never attempted. -/
theorem runPagesAux_attempts_not_prev (favorites : List String) (auto : Bool) (total : Nat) :
    ∀ (pages : List PageSpec) (i : Nat) (prev : List String) (acc : List MatchRec) a,
      a ∈ (runPagesAux favorites auto total i prev acc pages).attempts →
      prev.contains a.2.1 = false := by
  intro pages
  induction pages with
  | nil =>
    intro i prev acc a hmem
    simp only [runPagesAux] at hmem
    exact absurd hmem (List.not_mem_nil _)
  | cons p rest ih =>
    intro i prev acc a hmem
    simp only [runPagesAux] at hmem
    cases hmp : monitor_page favorites p with
    | nil =>
      rw [hmp] at hmem
      dsimp only at hmem
      exact ih (i + 1) prev acc a hmem
    | cons best more =>
      rw [hmp] at hmem
      dsimp only at hmem
      cases auto with
      | false =>
        rw [if_neg (by simp : ¬((false : Bool) = true))] at hmem
        dsimp only at hmem
        exact ih (i + 1) prev _ a hmem
      | true =>
        rw [if_pos (rfl : (true : Bool) = true)] at hmem
        by_cases hskip : prev.contains best.name = true
        · rw [if_pos hskip] at hmem
          dsimp only at hmem
          exact ih (i + 1) prev _ a hmem
        · rw [if_neg hskip] at hmem
          by_cases hres : (attempt_signup prev best.name p.resultPage).1 = true
          · rw [if_pos hres] at hmem
            dsimp only at hmem
            simp only [List.mem_singleton] at hmem
            subst hmem
            exact Bool.eq_false_iff.mpr hskip
          · rw [if_neg hres] at hmem
            dsimp only at hmem
            rcases List.mem_cons.mp hmem with rfl | hmem'
            · exact Bool.eq_false_iff.mpr hskip
            · have := ih (i + 1) _ _ a hmem'
              rw [attempt_signup_false_prev prev best.name p.resultPage
                (Bool.eq_false_iff.mpr hres)] at this
              exact this

end AutoSignup

namespace AutoSignup

/-- Without an early return and without any already-signed-up skip, the
rate-limit sleep runs after exactly the visited pages whose index is below
`total - 1`. -/
theorem runPagesAux_sleeps (favorites : List String) (auto : Bool) (total : Nat) :
    ∀ (pages : List PageSpec) (i : Nat) (prev : List String) (acc : List MatchRec),
      (runPagesAux favorites auto total i prev acc pages).signedUp = false →
      (runPagesAux favorites auto total i prev acc pages).skips = [] →
      (runPagesAux favorites auto total i prev acc pages).sleeps =
        (List.range' i pages.length).filter (fun j => decide (j < total - 1)) := by
  intro pages
  induction pages with
  | nil =>
    intro i prev acc _ _
    rfl
  | cons p rest ih =>
    intro i prev acc hsu hsk
    simp only [runPagesAux] at hsu hsk ⊢
    cases hmp : monitor_page favorites p with
    | nil =>
      rw [hmp] at hsu hsk
      dsimp only at hsu hsk ⊢
      rw [List.length_cons, List.range'_succ, List.filter_cons,
        ih (i + 1) prev acc hsu hsk]
      by_cases hi : i < total - 1
      · simp [hi]
      · simp [hi]
    | cons best more =>
      rw [hmp] at hsu hsk
      dsimp only at hsu hsk ⊢
      cases auto with
      | false =>
        rw [if_neg (by simp : ¬((false : Bool) = true))] at hsu hsk ⊢
        dsimp only at hsu hsk ⊢
        rw [List.length_cons, List.range'_succ, List.filter_cons,
          ih (i + 1) prev _ hsu hsk]
        by_cases hi : i < total - 1
        · simp [hi]
        · simp [hi]
      | true =>
        rw [if_pos (rfl : (true : Bool) = true)] at hsu hsk ⊢
        by_cases hskip : prev.contains best.name = true
        · rw [if_pos hskip] at hsk
          dsimp only at hsk
          exact absurd hsk (by simp)
        · rw [if_neg hskip] at hsu hsk ⊢
          by_cases hres : (attempt_signup prev best.name p.resultPage).1 = true
          · rw [if_pos hres] at hsu
            dsimp only at hsu
            exact absurd hsu (by simp)
          · rw [if_neg hres] at hsu hsk ⊢
            dsimp only at hsu hsk ⊢
            rw [List.length_cons, List.range'_succ, List.filter_cons,
              ih (i + 1) _ _ hsu hsk]
            by_cases hi : i < total - 1
            · simp [hi]
            · simp [hi]

/-- Filtering the index range `i, …, i+n-1` by `j < i + n - 1` drops
exactly the last index. -/
theorem range'_filter_lt_last :
    ∀ (n i total : Nat), i + n = total →
      (List.range' i n).filter (fun j => decide (j < total - 1)) =
        List.range' i (n - 1) := by
  intro n
  induction n with
  | zero => intro i total _; rfl
  | succ m ih =>
    intro i total htot
    rw [List.range'_succ, List.filter_cons]
    cases m with
    | zero =>
      have hi : ¬ (i < total - 1) := by omega
      simp [hi]
    | succ m' =>
      have hi : i < total - 1 := by omega
      have ht : i + 1 + (m' + 1) = total := by omega
      simp only [hi, decide_eq_true_eq, if_pos]
      rw [ih (i + 1) total ht]
      rw [show (m' + 1 + 1 - 1) = (m' + 1) from rfl, List.range'_succ]
      simp

/-- With auto-signup disabled, the accumulated match list is the
concatenation of the per-page match lists in page order, and the summary
notification (sent iff matches exist) names the first five of them. -/
theorem runPagesAux_concat (favorites : List String) (total : Nat) :
    ∀ (pages : List PageSpec) (i : Nat) (prev : List String) (acc : List MatchRec),
      (runPagesAux favorites false total i prev acc pages).allMatches =
        acc ++ (pages.map (monitor_page favorites)).flatten ∧
      (runPagesAux favorites false total i prev acc pages).summary =
        (if !(acc ++ (pages.map (monitor_page favorites)).flatten).isEmpty
         then some (((acc ++ (pages.map (monitor_page favorites)).flatten).take 5).map
           MatchRec.name)
         else none) := by
  intro pages
  induction pages with
  | nil =>
    intro i prev acc
    constructor
    · simp [runPagesAux]
    · simp [runPagesAux]
  | cons p rest ih =>
    intro i prev acc
    simp only [runPagesAux, List.map_cons, List.flatten_cons]
    cases hmp : monitor_page favorites p with
    | nil =>
      dsimp only
      obtain ⟨h1, h2⟩ := ih (i + 1) prev acc
      rw [h1, h2]
      simp
    | cons best more =>
      dsimp only
      rw [if_neg (by simp : ¬((false : Bool) = true))]
      dsimp only
      obtain ⟨h1, h2⟩ := ih (i + 1) prev (acc ++ best :: more)
      rw [h1, h2]
      simp [List.append_assoc]

end AutoSignup

namespace AutoSignup

/-- With successful initial authentication, the cycle is the page loop. -/
theorem run_monitoring_cycle_eq (favorites : List String) (auto : Bool)
    (prev : List String) (pages : List PageSpec) :
    run_monitoring_cycle favorites auto true prev pages =
      runPagesAux favorites auto pages.length 0 prev [] pages := by
  simp [run_monitoring_cycle]

/-- C1 counterexample: a cycle whose first page redirects to login with
failing recovery still visits the second page — the cycle is not
aborted. -/
theorem monitor_page_recovery_counterexample :
    exPageLoginDead.redirectsToLogin = true ∧
    exPageLoginDead.recoverySucceeds = false ∧
    (run_monitoring_cycle ["Chess"] true true [] [exPageLoginDead, exPageEmpty]).visited =
      [0, 1] := ⟨rfl, rfl, by decide⟩

/-- C1 (amended): when a page fetch is redirected to the login page and
re-running authenticate fails, only that page is skipped (it yields no
matches); the cycle is not aborted — whenever the cycle does not return
early after a successful signup, every configured page is visited. -/
theorem monitor_page_recovery_skips_page (favorites : List String) (p : PageSpec)
    (hr : p.redirectsToLogin = true) (hc : p.recoverySucceeds = false)
    (auto : Bool) (prev : List String) (pages : List PageSpec)
    (hne : (run_monitoring_cycle favorites auto true prev pages).signedUp = false) :
    monitor_page favorites p = [] ∧
    (run_monitoring_cycle favorites auto true prev pages).visited =
      List.range pages.length := by
  constructor
  · unfold monitor_page
    rw [hr, hc]
    cases hf : p.fetchFails
    · simp
    · simp
  · rw [run_monitoring_cycle_eq] at hne ⊢
    rw [runPagesAux_visited_total favorites auto pages.length pages 0 prev [] hne,
      List.range_eq_range']

/-- C1 witness: the amended statement at a concrete cycle. -/
theorem monitor_page_recovery_skips_page_witness :
    monitor_page ["Chess"] exPageLoginDead = [] ∧
    (run_monitoring_cycle ["Chess"] true true [] [exPageLoginDead, exPageEmpty]).visited =
      List.range 2 :=
  monitor_page_recovery_skips_page ["Chess"] exPageLoginDead rfl rfl true []
    [exPageLoginDead, exPageEmpty] (by decide)

/-- C3: with auto-signup enabled, a successful attempt ends the cycle
immediately: the cycle reports signed-up, returns true, the visited pages
are exactly those up to the successful attempt's page, and at most one
successful reservation occurs per cycle. -/
theorem cycle_stops_after_success (favorites : List String) (prev : List String)
    (pages : List PageSpec) :
    (∀ j n, (j, n, true) ∈ (run_monitoring_cycle favorites true true prev pages).attempts →
      (run_monitoring_cycle favorites true true prev pages).signedUp = true ∧
      (run_monitoring_cycle favorites true true prev pages).result = true ∧
      (run_monitoring_cycle favorites true true prev pages).visited = List.range (j + 1)) ∧
    ((run_monitoring_cycle favorites true true prev pages).attempts.filter
      (fun a => a.2.2)).length ≤ 1 := by
  rw [run_monitoring_cycle_eq]
  constructor
  · intro j n hmem
    obtain ⟨h1, h2, h3, h4⟩ :=
      runPagesAux_success_attempt favorites pages.length pages 0 prev [] j n hmem
    exact ⟨h1, h2, by rw [h4, Nat.sub_zero, List.range_eq_range']⟩
  · exact runPagesAux_one_success favorites true pages.length pages 0 prev []

/-- C3 witness: a concrete cycle whose first page's attempt succeeds stops
after page 0. -/
theorem cycle_stops_after_success_witness :
    (run_monitoring_cycle ["Chess"] true true [] [exPageWin, exPageFail]).signedUp = true ∧
    (run_monitoring_cycle ["Chess"] true true [] [exPageWin, exPageFail]).result = true ∧
    (run_monitoring_cycle ["Chess"] true true [] [exPageWin, exPageFail]).visited =
      List.range 1 :=
  (cycle_stops_after_success ["Chess"] [] [exPageWin, exPageFail]).1 0 "Chess Club A"
    (by decide)

/-- C7 counterexample: a cycle in which attempt_signup is called twice for
the same club name — the first attempt fails (ambiguous result) and a
later page's identical best match is attempted again. -/
theorem attempts_repeat_counterexample :
    (run_monitoring_cycle ["Chess"] true true [] [exPageFail, exPageFail]).attempts =
      [(0, "Chess Club A", false), (1, "Chess Club A", false)] := by decide

/-- C7 (amended): a club name already in previous signups at the start of
the cycle is never attempted, and a successful attempt is the final
attempt of the cycle; but after a failed or ambiguous attempt the same
club name may be attempted again on a later page of the same cycle (see
the counterexample). -/
theorem attempts_discipline (favorites : List String) (auto : Bool) (prev : List String)
    (pages : List PageSpec) :
    (∀ a ∈ (run_monitoring_cycle favorites auto true prev pages).attempts,
      prev.contains a.2.1 = false) ∧
    (∀ j n, (j, n, true) ∈ (run_monitoring_cycle favorites auto true prev pages).attempts →
      ∃ pre, (run_monitoring_cycle favorites auto true prev pages).attempts =
        pre ++ [(j, n, true)] ∧ ∀ a ∈ pre, a.2.2 = false) := by
  rw [run_monitoring_cycle_eq]
  exact ⟨fun a ha =>
      runPagesAux_attempts_not_prev favorites auto pages.length pages 0 prev [] a ha,
    fun j n h =>
      runPagesAux_success_is_last favorites auto pages.length pages 0 prev [] j n h⟩

/-- C7 witness: the attempt discipline at concrete cycles. -/
theorem attempts_discipline_witness :
    (["Zed Club"] : List String).contains "Chess Club A" = false ∧
    ∃ pre, (run_monitoring_cycle ["Chess"] true true [] [exPageWin]).attempts =
        pre ++ [(0, "Chess Club A", true)] ∧ ∀ a ∈ pre, a.2.2 = false :=
  ⟨(attempts_discipline ["Chess"] true ["Zed Club"] [exPageFail]).1
      (0, "Chess Club A", false) (by decide),
   (attempts_discipline ["Chess"] true [] [exPageWin]).2 0 "Chess Club A" (by decide)⟩

/-- C8 counterexample: a cycle that visits both of its pages without an
early return yet sleeps after none of them — the already-signed-up
`continue` path skips the rate-limit sleep after page 0. -/
theorem sleeps_skip_counterexample :
    (run_monitoring_cycle ["Chess"] true true ["Chess Club A"]
        [exPageFail, exPageEmpty]).signedUp = false ∧
    (run_monitoring_cycle ["Chess"] true true ["Chess Club A"]
        [exPageFail, exPageEmpty]).visited = [0, 1] ∧
    (run_monitoring_cycle ["Chess"] true true ["Chess Club A"]
        [exPageFail, exPageEmpty]).sleeps = [] := by
  refine ⟨by decide, by decide, by decide⟩

/-- C8 (amended): in a cycle with no early success return and no
already-signed-up skip (the `continue` path also skips the rate-limit
sleep), the sleep runs after every configured page except the last, and
not after the last. -/
theorem sleeps_all_but_last (favorites : List String) (auto : Bool) (prev : List String)
    (pages : List PageSpec)
    (hsu : (run_monitoring_cycle favorites auto true prev pages).signedUp = false)
    (hsk : (run_monitoring_cycle favorites auto true prev pages).skips = []) :
    (run_monitoring_cycle favorites auto true prev pages).sleeps =
      List.range (pages.length - 1) := by
  rw [run_monitoring_cycle_eq] at hsu hsk ⊢
  rw [runPagesAux_sleeps favorites auto pages.length pages 0 prev [] hsu hsk,
    range'_filter_lt_last pages.length 0 pages.length (by omega), List.range_eq_range']

/-- C8 witness: a three-page cycle sleeps after pages 0 and 1 only. -/
theorem sleeps_all_but_last_witness :
    (run_monitoring_cycle ["Chess"] false true [] [exPageEmpty, exPageEmpty, exPageEmpty]).sleeps =
      List.range 2 :=
  sleeps_all_but_last ["Chess"] false [] [exPageEmpty, exPageEmpty, exPageEmpty]
    (by decide) (by decide)

/-- C10: with auto-signup disabled, the cycle-level match collection is
the concatenation of the per-page match lists in page-visit order (never
globally re-sorted), and the favorites-available notification, sent iff
matches exist, contains exactly the names of the first min(5, length)
matches of that concatenation; the final conjunct exhibits a concrete
cycle whose concatenation is not sorted by priority. -/
theorem cycle_matches_concat (favorites : List String) (prev : List String)
    (pages : List PageSpec) :
    ((run_monitoring_cycle favorites false true prev pages).allMatches =
      (pages.map (monitor_page favorites)).flatten ∧
     (run_monitoring_cycle favorites false true prev pages).summary =
      (if !((pages.map (monitor_page favorites)).flatten).isEmpty
       then some ((((pages.map (monitor_page favorites)).flatten).take 5).map MatchRec.name)
       else none)) ∧
    (run_monitoring_cycle ["Chess", "FBLA"] false true []
        [exPageFBLA, exPageFail]).allMatches.map MatchRec.priority = [1, 0] := by
  refine ⟨?_, by decide⟩
  rw [run_monitoring_cycle_eq]
  obtain ⟨h1, h2⟩ := runPagesAux_concat favorites pages.length pages 0 prev []
  rw [h1, h2]
  simp

end AutoSignup
